import Mathlib

/- Verification development for the small-theme client-side runtime
(src/js/utils.js, carousel.js, focal-image.js, top-bar.js,
image-loading.js).  Each JavaScript module is shallowly embedded:
pure computations become Lean functions over `Rat` (JS numbers) and
`List Char` (JS strings), stateful closures become explicit state
records with step functions, and callbacks that may throw are modelled
with explicit `throws` flags whose exceptions appear as explicit
branches in the caller. -/

namespace Theme

/-- JS strings are modelled as lists of characters. -/
abbrev JsStr := List Char

/-- Convert a Lean string literal into the `JsStr` model. -/
def jstr (s : String) : JsStr := s.toList

/-- The `Map.get(key)` operation on a JS `Map` modelled as an
insertion-ordered association list: the value at the first matching
key, if any. -/
def mapGet {α β : Type} [DecidableEq α] : List (α × β) → α → Option β
  | [], _ => none
  | (k, v) :: rest, key => if k = key then some v else mapGet rest key

/-- The `Map.set(key, value)` operation on a JS `Map`: replace the
value in place if the key is present, otherwise append the new entry
at the end (JS `Map` preserves insertion order). -/
def mapSet {α β : Type} [DecidableEq α] : List (α × β) → α → β → List (α × β)
  | [], key, value => [(key, value)]
  | (k, v) :: rest, key, value =>
      if k = key then (k, value) :: rest else (k, v) :: mapSet rest key value

/-- The `Map.delete(key)` operation: remove the entry with the given
key, if any. -/
def mapDelete {α β : Type} [DecidableEq α] : List (α × β) → α → List (α × β)
  | [], _ => []
  | (k, v) :: rest, key => if k = key then rest else (k, v) :: mapDelete rest key

/-- Model of the host `Math.max` on two numbers. -/
def jsMax (a b : ℚ) : ℚ := if a ≤ b then b else a

/-- Model of the host `Math.min` on two numbers. -/
def jsMin (a b : ℚ) : ℚ := if a ≤ b then a else b

/-- Model of the host `Math.abs`. -/
def jsAbs (q : ℚ) : ℚ := if q < 0 then -q else q

/-- Model of the host `Math.floor` on a non-negative number. -/
def jsFloorNat (q : ℚ) : Nat := q.num.toNat / q.den

end Theme

namespace Theme.Cleanup

/- Embedding of `cleanupSystem` from src/js/utils.js (lines 170-219).

A teardown callback is opaque to the registry; we model it by an
identifier (so invocations can be traced) plus a flag saying whether
invoking it throws.  Invoking a teardown appends its id to the trace;
if it throws, the exception surfaces as the `throws` flag, which the
caller either catches (as `cleanupAll` does) or lets propagate. -/

/-- An opaque teardown callback: identified by `id`, throwing on
invocation when `throws` is set. -/
structure Teardown where
  id : Nat
  throws : Bool
deriving DecidableEq, Repr

/-- The registry's private `cleanupFunctions` map: name to teardown. -/
structure Registry where
  entries : List (String × Teardown)
deriving DecidableEq, Repr

/-- The relevant global `window` state: the optional `themeCleanup`
page-teardown hook (modelled as the chain of teardowns the composed
closure would run, front first, before the pre-existing base hook) and
the per-name `window.cleanup<Name>` fallback slots. -/
structure Win where
  themeCleanup : Option (List Teardown)
  namedCleanups : List (String × Teardown)
deriving DecidableEq, Repr

/-- The `register(name, cleanupFn)` operation (utils.js lines 173-192):
store the teardown in the map (replacing any previous entry for that
name, per `Map.set` semantics); then, if `window.themeCleanup` exists,
wrap it so the new teardown runs first and the prior hook afterwards;
otherwise install the teardown on `window.cleanup<name>`.  (The
`typeof` guard rejecting non-functions is vacuous in this typed
model.) -/
def register (name : String) (cleanupFn : Teardown) (reg : Registry) (win : Win) :
    Registry × Win :=
  let reg2 : Registry := ⟨Theme.mapSet reg.entries name cleanupFn⟩
  match win.themeCleanup with
  | some originalCleanup =>
      (reg2, { win with themeCleanup := some (cleanupFn :: originalCleanup) })
  | none =>
      (reg2, { win with
        namedCleanups := Theme.mapSet win.namedCleanups ("cleanup" ++ name) cleanupFn })

/-- Invoking one teardown: its id enters the invocation trace; the
returned flag says whether it threw. -/
def invoke (t : Teardown) : List Nat × Bool := ([t.id], t.throws)

/-- The recursive body of `cleanupAll` (utils.js lines 202-211):
iterate over all entries, invoking each teardown inside a try/catch —
an exception is logged as a console warning naming the entry and
iteration continues.  Returns the invocation trace and the logged
warnings. -/
def cleanupAllGo : List (String × Teardown) → List Nat × List String
  | [] => ([], [])
  | (name, t) :: rest =>
      let r := invoke t
      let tail := cleanupAllGo rest
      if r.2 then
        (r.1 ++ tail.1, ("Error cleaning up " ++ name) :: tail.2)
      else
        (r.1 ++ tail.1, tail.2)

/-- The `cleanupAll()` operation: run every registered teardown
(exceptions caught and logged per entry), then `clear()` the map.
Result: the invocation trace, the warnings, and the final registry
state. -/
def cleanupAll (reg : Registry) : List Nat × List String × Registry :=
  let r := cleanupAllGo reg.entries
  (r.1, r.2, ⟨[]⟩)

/-- The `cleanup(name)` operation (utils.js lines 194-200): invoke the
named teardown (uncaught) and delete it, when present. -/
def cleanup (name : String) (reg : Registry) : List Nat × Registry :=
  match Theme.mapGet reg.entries name with
  | some t => ((invoke t).1, ⟨Theme.mapDelete reg.entries name⟩)
  | none => ([], reg)

end Theme.Cleanup

namespace Theme.Obs

/- Embedding of `intersectionObserver` from src/js/utils.js
(lines 57-97).  The closure holds a nullable `observer`; `init`
constructs the underlying `IntersectionObserver` lazily, `destroy`
disconnects and nulls it, `observe` lazily initializes and then
watches an element.  We give each constructed watcher a fresh
instance id (the running `created` counter) so that re-initialization
is observable in the model. -/

/-- The handle state: how many watchers have been constructed so far,
and the live watcher (instance id, observed elements), if any. -/
structure Handle where
  created : Nat
  observer : Option (Nat × List Nat)
deriving DecidableEq, Repr

/-- The `init()` operation: return the existing watcher if present,
otherwise construct a fresh one (fresh instance id, observing
nothing). -/
def init (h : Handle) : Handle :=
  match h.observer with
  | some _ => h
  | none => { created := h.created + 1, observer := some (h.created + 1, []) }

/-- The `destroy()` operation: disconnect and release the watcher. -/
def destroy (h : Handle) : Handle := { h with observer := none }

/-- The `observe(element)` operation: lazily initialize if the watcher
is absent, then begin observing the element. -/
def observe (element : Nat) (h : Handle) : Handle :=
  let h1 := match h.observer with
    | none => init h
    | some _ => h
  match h1.observer with
  | some p => { h1 with observer := some (p.1, element :: p.2) }
  | none => h1

/-- The `unobserve(element)` operation: stop watching one element,
when a watcher exists. -/
def unobserve (element : Nat) (h : Handle) : Handle :=
  match h.observer with
  | some p => { h with observer := some (p.1, p.2.erase element) }
  | none => h

end Theme.Obs

namespace Theme.Focal

/- Embedding of the focal-point cropper from src/js/focal-image.js
(FocalCalculator, lines 64-93).  JS numbers are modelled as rationals;
the host builtin `parseFloat` is modelled on the decimal grammar it
accepts (optional whitespace, sign, integer and fraction digits,
stopping at the first unconsumable character; the exponent and
Infinity forms, which no focal coordinate uses, are not modelled). -/

/-- Whitespace characters skipped by `parseFloat`. -/
def isWs (c : Char) : Bool :=
  c = ' ' || c = '\t' || c = '\n' || c = '\r'

/-- Consume leading decimal digits: accumulated value, number of
digits consumed, and the remaining characters. -/
def parseDigitsAux : List Char → Nat → Nat → Nat × Nat × List Char
  | [], v, n => (v, n, [])
  | c :: rest, v, n =>
      if c.isDigit then parseDigitsAux rest (v * 10 + (c.toNat - 48)) (n + 1)
      else (v, n, c :: rest)

/-- Consume leading decimal digits of a character list. -/
def parseDigits (s : List Char) : Nat × Nat × List Char := parseDigitsAux s 0 0

/-- Model of the host `parseFloat`: skip whitespace, read an optional
sign, then integer digits and an optional fractional part, ignoring
everything after the first unconsumable character.  Returns `none`
(JS `NaN`) when no digit was consumed. -/
def jsParseFloat (s : JsStr) : Option ℚ :=
  let s1 := s.dropWhile isWs
  let signed : Bool × List Char :=
    match s1 with
    | '-' :: r => (true, r)
    | '+' :: r => (false, r)
    | _ => (false, s1)
  let ipart := parseDigits signed.2
  let valCnt : ℚ × Nat :=
    match ipart.2.2 with
    | '.' :: r =>
        let fpart := parseDigits r
        ((ipart.1 : ℚ) + (fpart.1 : ℚ) / ((10 : ℚ) ^ fpart.2.1),
         ipart.2.1 + fpart.2.1)
    | _ => ((ipart.1 : ℚ), ipart.2.1)
  if valCnt.2 = 0 then none
  else some (if signed.1 then -valCnt.1 else valCnt.1)

/-- Decimal digits of the fractional part of a rational in `[0, 1)`,
with fuel bounding the length (JS prints the terminating decimals that
arise here exactly). -/
def fracDigits : ℚ → Nat → List Char
  | _, 0 => []
  | f, Nat.succ fuel =>
      if f = 0 then []
      else
        let f10 := f * 10
        let d := Theme.jsFloorNat f10
        Char.ofNat (48 + d) :: fracDigits (f10 - (d : ℚ)) fuel

/-- Model of JS number-to-string conversion for the terminating
decimals produced by the percentage computation. -/
def fmtRat (q : ℚ) : List Char :=
  let sign : List Char := if q < 0 then ['-'] else []
  let a := Theme.jsAbs q
  let ip := Theme.jsFloorNat a
  let frac := a - (ip : ℚ)
  sign ++ Nat.toDigits 10 ip ++
    (if frac = 0 then [] else '.' :: fracDigits frac 30)

/-- The numeric part of `convertToPercentage` (focal-image.js lines
65-71): `parseFloat(coordinate) || 0`, then `(value + 1) * 50`,
clamped to `[0, 100]`. -/
def clampedPercentage (coordinate : JsStr) : ℚ :=
  let value : ℚ := (jsParseFloat coordinate).getD 0
  let percentage := (value + 1) * 50
  Theme.jsMax 0 (Theme.jsMin 100 percentage)

/-- The `convertToPercentage(coordinate)` helper: clamped percentage
rendered as a string with a trailing percent sign. -/
def convertToPercentage (coordinate : JsStr) : JsStr :=
  fmtRat (clampedPercentage coordinate) ++ ['%']

/-- The calculator's position cache (the component's `cache` map). -/
abbrev Cache := List (JsStr × JsStr)

/-- The default `50% 50%` object position. -/
def defaultPosition : JsStr := jstr "50% 50%"

/-- The `calculatePosition(focalX, focalY)` operation (focal-image.js
lines 73-88): `null` coordinates give the default position; otherwise
the cache is consulted under the key `focalX_focalY` and the position
string is computed and stored on a miss (a falsy cached value, i.e.
the empty string, also counts as a miss, mirroring `if (!position)`). -/
def calculatePosition (focalX focalY : Option JsStr) (cache : Cache) :
    JsStr × Cache :=
  match focalX, focalY with
  | some fx, some fy =>
      let positionKey := fx ++ '_' :: fy
      let computed := convertToPercentage fx ++ ' ' :: convertToPercentage fy
      (match Theme.mapGet cache positionKey with
       | some position =>
           if position = [] then (computed, Theme.mapSet cache positionKey computed)
           else (position, cache)
       | none => (computed, Theme.mapSet cache positionKey computed))
  | _, _ => (defaultPosition, cache)

/-- Invariant of caches reachable through underscore-free coordinate
strings: every entry's key splits uniquely at its underscore and its
value is the position string computed for that split. -/
def CacheInv (cache : Cache) : Prop :=
  ∀ kv ∈ cache, ∃ a b : JsStr, '_' ∉ a ∧ '_' ∉ b ∧
    kv.1 = a ++ '_' :: b ∧
    kv.2 = convertToPercentage a ++ ' ' :: convertToPercentage b

end Theme.Focal

namespace Theme.Carousel

/- Embedding of the carousel mount decision and the autoplay state
machine from src/js/carousel.js. -/

/-- The `CarouselConfig.breakpoint` constant (992px). -/
def breakpoint : ℚ := 992

/-- The `CarouselConfig.maxSlidesDesktop` constant. -/
def maxSlidesDesktop : Nat := 4

/-- The `CarouselConfig.autoplay.stopInteraction` constant. -/
def stopInteraction : Bool := true

/-- The `desktop()` predicate (carousel.js line 315): the media query
object exists and currently matches. -/
def desktop (mediaQuery : Option Bool) : Bool := mediaQuery = some true

/-- Whether `matchMedia("(min-width: 992px)")` matches at a given
viewport width. -/
def matchMedia (viewportWidth : ℚ) : Bool := decide (breakpoint ≤ viewportWidth)

/-- The `checkCarousel()` mount decision (carousel.js lines 317-323):
always mount off desktop; on desktop mount only above the slide cap.
`init` (line 387) and the debounced media-query handler (lines
375-379) mount exactly when this returns true. -/
def checkCarousel (slideCount : Nat) (mediaQuery : Option Bool) : Bool :=
  if desktop mediaQuery = false then true
  else decide (slideCount > maxSlidesDesktop)

/-- The autoplay closure state (carousel.js lines 128-171) together
with the processor's `isHovering` flag (line 174).  Interval handles
are issued from the `nextHandle` counter so that a freshly started
interval is observable in the model. -/
structure APState where
  autoplayInterval : Option Nat
  autoplayActive : Bool
  isHovering : Bool
  nextHandle : Nat
deriving DecidableEq, Repr

/-- The `autoplayStart()` operation: a no-op when autoplay was
permanently deactivated or an interval is already running; otherwise
start a fresh interval. -/
def autoplayStart (s : APState) : APState :=
  if s.autoplayActive = false ∨ s.autoplayInterval ≠ none then s
  else { s with autoplayInterval := some s.nextHandle, nextHandle := s.nextHandle + 1 }

/-- The `autoplayStop()` operation: clear any running interval. -/
def autoplayStop (s : APState) : APState := { s with autoplayInterval := none }

/-- The `autoplayPause()` operation (delegates to stop). -/
def autoplayPause (s : APState) : APState := autoplayStop s

/-- The `autoplayResume()` operation: restart only while still
active. -/
def autoplayResume (s : APState) : APState :=
  if s.autoplayActive = true then autoplayStart s else s

/-- The `autoplayStopPermanently()` operation: deactivate, then stop. -/
def autoplayStopPermanently (s : APState) : APState :=
  autoplayStop { s with autoplayActive := false }

/-- The asynchronous signals that can reach the autoplay state machine
after mount: click/touch on the carousel (with whether the target is a
navigation control), hover enter/leave, the visibility observer, and
direct start/resume calls. -/
inductive Ev where
  | pointerDown (isControl : Bool)
  | mouseEnter
  | mouseLeave
  | visibility (isIntersecting : Bool)
  | startCall
  | resumeCall
deriving DecidableEq, Repr

/-- The `handleCarousel(e)` interaction handler (carousel.js lines
188-202), reached only when autoplay exists: with interaction-stop
enabled, a click on a control stops the interval and, if not
hovering, immediately starts a fresh one; any other click stops
autoplay permanently. -/
def handleCarousel (isControl : Bool) (s : APState) : APState :=
  if stopInteraction = false then s
  else if isControl = true then
    let s1 := autoplayStop s
    if s1.isHovering = false then autoplayStart s1 else s1
  else autoplayStopPermanently s

/-- One asynchronous event step of the autoplay subsystem:
`handleMouseEnter`/`handleMouseLeave` (carousel.js lines 204-216), the
visibility `observerHandler` (lines 344-350), `handleCarousel`, and
direct start/resume calls. -/
def step (s : APState) : Ev → APState
  | .pointerDown c => handleCarousel c s
  | .mouseEnter => autoplayPause { s with isHovering := true }
  | .mouseLeave => autoplayResume { s with isHovering := false }
  | .visibility b => if b = true then autoplayResume s else autoplayPause s
  | .startCall => autoplayStart s
  | .resumeCall => autoplayResume s

/-- Run a sequence of autoplay events. -/
def run (s : APState) (evs : List Ev) : APState := evs.foldl step s

end Theme.Carousel

namespace Theme.TopBar

/- Embedding of the top-bar scroll handler from src/js/top-bar.js
(TopBarScroll, lines 116-173). -/

/-- The `TopBarConfig.minHeight` constant (200px). -/
def minHeight : ℚ := 200

/-- The `TopBarConfig.hysteresis` constant (20px). -/
def hysteresis : ℚ := 20

/-- The DOM component's cache: the most recently calculated bar height
(written by `TopBarHeight.calculate`) and the last seen scroll
position. -/
structure Cache where
  barHeight : ℚ
  lastScroll : ℚ
deriving DecidableEq, Repr

/-- The snapshot taken by the read phase of `handleScroll` (top-bar.js
lines 121-136). -/
structure ScrollData where
  current : ℚ
  threshold : ℚ
  isScrolled : Bool
  isSticky : Bool
  lastScroll : ℚ
deriving Repr

/-- The read phase of `handleScroll`: snapshot the scroll position,
the effective threshold `max(minHeight, cached bar height)`, the
current modifier state, stickiness, and the cached last scroll. -/
def readScroll (cache : Cache) (scrollY : ℚ) (isScrolled isSticky : Bool) :
    ScrollData :=
  { current := scrollY
    threshold := Theme.jsMax minHeight cache.barHeight
    isScrolled := isScrolled
    isSticky := isSticky
    lastScroll := cache.lastScroll }

/-- The write phase of `handleScroll` (top-bar.js lines 138-165):
below the threshold the modifier is removed unconditionally; scrolling
up past the hysteresis band removes it; scrolling down above the
threshold adds it; the cached last scroll is updated on every
non-bailing path.  Returns the new modifier state and cache. -/
def writeScroll (d : ScrollData) (cache : Cache) : Bool × Cache :=
  if d.isSticky = false then (d.isScrolled, cache)
  else if d.current ≤ d.threshold then
    (false, { cache with lastScroll := d.current })
  else if d.current < d.lastScroll - hysteresis ∧ d.isScrolled = true ∧
      d.current > d.threshold then
    (false, { cache with lastScroll := d.current })
  else if d.current > d.lastScroll ∧ d.isScrolled = false ∧
      d.current > d.threshold then
    (true, { cache with lastScroll := d.current })
  else
    (d.isScrolled, { cache with lastScroll := d.current })

/-- One full `handleScroll` evaluation: read then write. -/
def handleScroll (scrollY : ℚ) (isSticky isScrolled : Bool) (cache : Cache) :
    Bool × Cache :=
  writeScroll (readScroll cache scrollY isScrolled isSticky) cache

end Theme.TopBar

namespace Theme.ImageLoading

/- Embedding of the lazy image loader from src/js/image-loading.js:
`ImageRenderer.loadImage`/`fadeInImage` (lines 60-159), the initial
scan `ImageProcessor.processImages` (lines 161-181), and the
intersection callback of `imageObserver` (lines 183-213), specialized
to one image wrapper (wrappers are processed independently). -/

/-- The DOM facts about one wrapper's main image: its classes
(`image-main`, `hidden`, `loaded`), whether its wrapper and
placeholder elements exist, whether the browser has finished fetching
it (`complete`), and whether it is inside the viewport at scan time. -/
structure Img where
  isMain : Bool
  hidden : Bool
  loadedClass : Bool
  hasWrapper : Bool
  hasPlaceholder : Bool
  complete : Bool
  inViewport : Bool
deriving DecidableEq, Repr

/-- The runtime state of one wrapper: whether the wrapper-level query
found a main image, the image facts, whether the image is currently
registered with the intersection observer, how many once-only `load`
listeners are pending, and how many times the fade-in (the actual
load) has run. -/
structure St where
  imageFound : Bool
  img : Img
  observed : Bool
  pendingLoad : Nat
  loadCount : Nat
deriving DecidableEq, Repr

/-- State of a wrapper before the initial scan. -/
def initialSt (found : Bool) (img : Img) : St :=
  ⟨found, img, false, 0, 0⟩

/-- The `fadeInImage` action (image-loading.js lines 125-135): promote
the deferred srcsets, drop the `hidden` class, add `loaded`, and fade
out the placeholder.  This is the observable "load" event of the
claim, so it bumps `loadCount`. -/
def fadeInImage (s : St) : St :=
  { s with
    img := { s.img with hidden := false, loadedClass := true }
    loadCount := s.loadCount + 1 }

/-- The `loadImage` action (image-loading.js lines 137-154): bail
unless the element is a still-hidden main image with wrapper and
placeholder; then fade in immediately when the browser already
finished fetching, otherwise attach a once-only `load` listener.
(The viewport flag only tunes priority hints, which have no
state in this model.) -/
def loadImage (s : St) : St :=
  if s.img.isMain = false then s
  else if s.img.hidden = false then s
  else if s.img.hasWrapper = false ∨ s.img.hasPlaceholder = false then s
  else if s.img.complete = true then fadeInImage s
  else { s with pendingLoad := s.pendingLoad + 1 }

/-- The initial scan for one wrapper (`processImages`, image-loading.js
lines 162-176): skip wrappers without image or placeholder and images
no longer hidden; load in-viewport images immediately, hand everything
else to the intersection observer. -/
def processImage (s : St) : St :=
  if s.imageFound = false ∨ s.img.hasPlaceholder = false then s
  else if s.img.hidden = false then s
  else if s.img.inViewport = true then loadImage s
  else { s with observed := true }

/-- The asynchronous events that can reach one wrapper after the scan:
an intersection-observer callback (with its `isIntersecting` flag) and
the browser's `load` event on the image. -/
inductive IEv where
  | intersect (isIntersecting : Bool)
  | browserLoad
deriving DecidableEq, Repr

/-- Fire the pending once-only `load` listeners, each running
`fadeInImage`. -/
def fireLoadListeners : Nat → St → St
  | 0, s => s
  | Nat.succ n, s => fireLoadListeners n (fadeInImage s)

/-- One asynchronous event step: the observer callback (image-loading.js
lines 186-192) fires only for observed elements, ignores
non-intersecting entries, and otherwise loads the image and
unobserves it; the browser `load` event marks the image complete and
runs the pending listeners. -/
def stepI (s : St) : IEv → St
  | .intersect b =>
      if s.observed = true then
        if b = true then
          let s1 := loadImage s
          { s1 with observed := false }
        else s
      else s
  | .browserLoad =>
      let s1 : St := { s with img := { s.img with complete := true }, pendingLoad := 0 }
      fireLoadListeners s.pendingLoad s1

/-- Run a sequence of events against one wrapper's state. -/
def runI (s : St) (evs : List IEv) : St := evs.foldl stepI s

/-- The state-machine invariant maintained from the initial scan
onwards: the image loads at most once in total (counting pending
listeners), a loaded image is no longer hidden, a pending listener
implies a still-hidden image, and an observed image is untouched. -/
def Inv (s : St) : Prop :=
  s.loadCount + s.pendingLoad ≤ 1 ∧
  (1 ≤ s.loadCount → s.img.hidden = false) ∧
  (1 ≤ s.pendingLoad → s.img.hidden = true) ∧
  (s.observed = true → s.loadCount = 0 ∧ s.pendingLoad = 0 ∧ s.img.hidden = true)

end Theme.ImageLoading

namespace Theme

lemma cleanupAllGo_trace (l : List (String × Cleanup.Teardown)) :
    (Cleanup.cleanupAllGo l).1 = l.map (fun e => e.2.id) := by
  induction l with
  | nil => rfl
  | cons e rest ih =>
      obtain ⟨name, t⟩ := e
      simp only [Cleanup.cleanupAllGo, Cleanup.invoke]
      by_cases hthr : t.throws <;> simp [hthr, ih]

lemma cleanupAllGo_warns (l : List (String × Cleanup.Teardown)) :
    (Cleanup.cleanupAllGo l).2 =
      (l.filter (fun e => e.2.throws)).map
        (fun e => "Error cleaning up " ++ e.1) := by
  induction l with
  | nil => rfl
  | cons e rest ih =>
      obtain ⟨name, t⟩ := e
      simp only [Cleanup.cleanupAllGo, Cleanup.invoke]
      by_cases hthr : t.throws <;> simp [hthr, ih, List.filter_cons]

/-- C1: the claim as stated is false on the code.  From a page state
with no pre-existing global `themeCleanup` hook (which is the state
this repository's components always start in — nothing in the
repository creates that hook), registering two teardowns under the
same name makes `cleanupAll` invoke only the second one: the
`Map.set` in `register` replaces the entry, so the prior teardown
(id 1) is never invoked. -/
theorem C1_counterexample :
    (Cleanup.cleanupAll
        (Cleanup.register "A" ⟨2, false⟩
          (Cleanup.register "A" ⟨1, false⟩ ⟨[]⟩ ⟨none, []⟩).1
          (Cleanup.register "A" ⟨1, false⟩ ⟨[]⟩ ⟨none, []⟩).2).1).1 = [2] ∧
    1 ∉ (Cleanup.cleanupAll
        (Cleanup.register "A" ⟨2, false⟩
          (Cleanup.register "A" ⟨1, false⟩ ⟨[]⟩ ⟨none, []⟩).1
          (Cleanup.register "A" ⟨1, false⟩ ⟨[]⟩ ⟨none, []⟩).2).1).1 := by
  decide

/-- C1 (amended): registering a second teardown under an existing name
replaces the registry entry, so a subsequent `cleanupAll` invokes only
the newer teardown; composition happens only on the global
`window.themeCleanup` page-teardown hook, and only when that hook
already exists at registration time (regardless of the name), in
which case the composed hook runs the new teardown first and the
prior hook afterwards. -/
theorem C1_register_replaces (name : String) (f1 f2 : Cleanup.Teardown)
    (win : Cleanup.Win) (hwin : win.themeCleanup = none) :
    ((Cleanup.register name f2
        (Cleanup.register name f1 ⟨[]⟩ win).1
        (Cleanup.register name f1 ⟨[]⟩ win).2).1).entries = [(name, f2)] ∧
    (Cleanup.cleanupAll
        (Cleanup.register name f2
          (Cleanup.register name f1 ⟨[]⟩ win).1
          (Cleanup.register name f1 ⟨[]⟩ win).2).1).1 = [f2.id] ∧
    (∀ (w : Cleanup.Win) (hook : List Cleanup.Teardown) (f : Cleanup.Teardown)
        (r : Cleanup.Registry), w.themeCleanup = some hook →
        ((Cleanup.register name f r w).2).themeCleanup = some (f :: hook)) := by
  refine ⟨?_, ?_, ?_⟩
  · simp [Cleanup.register, hwin, mapSet]
  · by_cases h2 : f2.throws <;>
      simp [Cleanup.register, Cleanup.cleanupAll, Cleanup.cleanupAllGo,
        Cleanup.invoke, hwin, mapSet, h2]
  · intro w hook f r hw
    simp [Cleanup.register, hw]

/-- C1 witness: the amended statement at name `"A"`, teardown ids 1
and 2, and an initially hookless window. -/
theorem C1_register_replaces_witness :
    ((Cleanup.register "A" (⟨2, false⟩ : Cleanup.Teardown)
        (Cleanup.register "A" ⟨1, false⟩ ⟨[]⟩ ⟨none, []⟩).1
        (Cleanup.register "A" ⟨1, false⟩ ⟨[]⟩ ⟨none, []⟩).2).1).entries
      = [("A", ⟨2, false⟩)] ∧
    (Cleanup.cleanupAll
        (Cleanup.register "A" (⟨2, false⟩ : Cleanup.Teardown)
          (Cleanup.register "A" ⟨1, false⟩ ⟨[]⟩ ⟨none, []⟩).1
          (Cleanup.register "A" ⟨1, false⟩ ⟨[]⟩ ⟨none, []⟩).2).1).1
      = [(⟨2, false⟩ : Cleanup.Teardown).id] ∧
    (∀ (w : Cleanup.Win) (hook : List Cleanup.Teardown) (f : Cleanup.Teardown)
        (r : Cleanup.Registry), w.themeCleanup = some hook →
        ((Cleanup.register "A" f r w).2).themeCleanup = some (f :: hook)) :=
  C1_register_replaces "A" ⟨1, false⟩ ⟨2, false⟩ ⟨none, []⟩ rfl

/-- C2: for every registry state, `cleanupAll` invokes every
registered teardown exactly once and in order (the invocation trace is
exactly the list of registered teardown ids, whether or not individual
teardowns throw), each thrown exception is caught and logged as a
warning naming the failing entry rather than propagated, and the
registry is empty afterwards. -/
theorem C2_cleanupAll_runs_all (reg : Cleanup.Registry) :
    (Cleanup.cleanupAll reg).1 = reg.entries.map (fun e => e.2.id) ∧
    (Cleanup.cleanupAll reg).2.2.entries = [] ∧
    (Cleanup.cleanupAll reg).2.1 =
      (reg.entries.filter (fun e => e.2.throws)).map
        (fun e => "Error cleaning up " ++ e.1) :=
  ⟨cleanupAllGo_trace reg.entries, rfl, cleanupAllGo_warns reg.entries⟩

end Theme

namespace Theme

lemma mapGet_mem {α β : Type} [DecidableEq α] (l : List (α × β)) (k : α) (v : β)
    (h : mapGet l k = some v) : (k, v) ∈ l := by
  induction l with
  | nil => simp [mapGet] at h
  | cons e rest ih =>
      obtain ⟨k1, v1⟩ := e
      by_cases hk : k1 = k
      · subst hk
        simp [mapGet] at h
        simp [h]
      · simp [mapGet, hk] at h
        exact List.mem_cons_of_mem _ (ih h)

lemma mapSet_mem {α β : Type} [DecidableEq α] (l : List (α × β)) (k : α) (v : β)
    (kv : α × β) (h : kv ∈ mapSet l k v) : kv ∈ l ∨ kv = (k, v) := by
  induction l with
  | nil => simp [mapSet] at h; simp [h]
  | cons e rest ih =>
      obtain ⟨k1, v1⟩ := e
      by_cases hk : k1 = k
      · subst hk
        simp [mapSet] at h
        rcases h with h | h
        · right; simp [h]
        · left; exact List.mem_cons_of_mem _ h
      · simp [mapSet, hk] at h
        rcases h with h | h
        · left; simp [h]
        · rcases ih h with h2 | h2
          · left; exact List.mem_cons_of_mem _ h2
          · right; exact h2

lemma underscore_key_inj :
    ∀ (a a2 b b2 : JsStr), '_' ∉ a → '_' ∉ a2 →
      a ++ '_' :: b = a2 ++ '_' :: b2 → a = a2 ∧ b = b2 := by
  intro a
  induction a with
  | nil =>
      intro a2 b b2 _ ha2 h
      cases a2 with
      | nil => simpa using h
      | cons c r =>
          simp only [List.nil_append, List.cons_append, List.cons.injEq] at h
          exact absurd (List.mem_cons.mpr (Or.inl h.1)) ha2
  | cons c r ih =>
      intro a2 b b2 ha ha2 h
      cases a2 with
      | nil =>
          simp only [List.nil_append, List.cons_append, List.cons.injEq] at h
          exact absurd (List.mem_cons.mpr (Or.inl h.1.symm)) ha
      | cons c2 r2 =>
          simp only [List.cons_append, List.cons.injEq] at h
          obtain ⟨hc, hrest⟩ := h
          have ha3 : '_' ∉ r := fun hm => ha (List.mem_cons_of_mem _ hm)
          have ha4 : '_' ∉ r2 := fun hm => ha2 (List.mem_cons_of_mem _ hm)
          obtain ⟨h1, h2⟩ := ih r2 b b2 ha3 ha4 hrest
          exact ⟨by simp [hc, h1], h2⟩

lemma convertToPercentage_ne_nil (c : JsStr) :
    Focal.convertToPercentage c ≠ [] := by
  simp [Focal.convertToPercentage]

lemma position_value_ne_nil (a b : JsStr) :
    Focal.convertToPercentage a ++ ' ' :: Focal.convertToPercentage b ≠ [] := by
  intro h
  have := List.append_eq_nil.mp h
  simp at this

lemma calculatePosition_correct (fx fy : JsStr) (cache : Focal.Cache)
    (hc : Focal.CacheInv cache) (hx : '_' ∉ fx) (hy : '_' ∉ fy) :
    (Focal.calculatePosition (some fx) (some fy) cache).1 =
      Focal.convertToPercentage fx ++ ' ' :: Focal.convertToPercentage fy ∧
    Focal.CacheInv (Focal.calculatePosition (some fx) (some fy) cache).2 := by
  simp only [Focal.calculatePosition]
  cases hkey : mapGet cache (fx ++ '_' :: fy) with
  | none =>
      refine ⟨rfl, ?_⟩
      intro kv hkv
      rcases mapSet_mem _ _ _ _ hkv with h | h
      · exact hc kv h
      · subst h
        exact ⟨fx, fy, hx, hy, rfl, rfl⟩
  | some v =>
      have hmem := mapGet_mem _ _ _ hkey
      obtain ⟨a, b, hga, hgb, hk, hv⟩ := hc _ hmem
      obtain ⟨h1, h2⟩ := underscore_key_inj fx a fy b hx hga hk
      subst h1; subst h2
      have hv2 : v = Focal.convertToPercentage fx ++ ' ' :: Focal.convertToPercentage fy := hv
      have hne : v ≠ [] := by rw [hv2]; exact position_value_ne_nil fx fy
      constructor
      · simp [hne, hv2]
      · simp only [hne, if_neg, if_false]
        simpa using hc

end Theme

namespace Theme

lemma jsMax_eq (a b : ℚ) : jsMax a b = max a b := by
  simp [jsMax, max_def]

lemma jsMin_eq (a b : ℚ) : jsMin a b = min a b := by
  simp [jsMin, min_def]

lemma clampedPercentage_bounds (c : JsStr) :
    0 ≤ Focal.clampedPercentage c ∧ Focal.clampedPercentage c ≤ 100 := by
  simp only [Focal.clampedPercentage, jsMax_eq, jsMin_eq]
  exact ⟨le_max_left 0 _, max_le (by norm_num) (min_le_left _ _)⟩

lemma fmtRat_50 : Focal.fmtRat 50 = jstr "50" := by
  have h1 : jsAbs (50:ℚ) = 50 := by norm_num [jsAbs]
  have h2 : jsFloorNat (50:ℚ) = 50 := by
    norm_num [jsFloorNat, Rat.num_ofNat, Rat.den_ofNat]
    decide
  simp only [Focal.fmtRat, h1, h2]
  norm_num
  decide

lemma fmtRat_100 : Focal.fmtRat 100 = jstr "100" := by
  have h1 : jsAbs (100:ℚ) = 100 := by norm_num [jsAbs]
  have h2 : jsFloorNat (100:ℚ) = 100 := by
    norm_num [jsFloorNat, Rat.num_ofNat, Rat.den_ofNat]
    decide
  simp only [Focal.fmtRat, h1, h2]
  norm_num
  decide

lemma conv_of_0 : Focal.convertToPercentage (jstr "0") = jstr "50%" := by
  have h : Focal.clampedPercentage (jstr "0") = 50 := by
    norm_num +decide [Focal.clampedPercentage, Focal.jsParseFloat, jstr,
      Focal.parseDigits, Focal.parseDigitsAux, Focal.isWs, jsMin, jsMax]
  simp only [Focal.convertToPercentage, h, fmtRat_50]
  decide

lemma conv_of_0u1 : Focal.convertToPercentage (jstr "0_1") = jstr "50%" := by
  have h : Focal.clampedPercentage (jstr "0_1") = 50 := by
    norm_num +decide [Focal.clampedPercentage, Focal.jsParseFloat, jstr,
      Focal.parseDigits, Focal.parseDigitsAux, Focal.isWs, jsMin, jsMax]
  simp only [Focal.convertToPercentage, h, fmtRat_50]
  decide

lemma conv_of_1u0 : Focal.convertToPercentage (jstr "1_0") = jstr "100%" := by
  have h49 : ('1').toNat = 49 := rfl
  have h : Focal.clampedPercentage (jstr "1_0") = 100 := by
    norm_num +decide [Focal.clampedPercentage, Focal.jsParseFloat, jstr,
      Focal.parseDigits, Focal.parseDigitsAux, Focal.isWs, jsMin, jsMax, h49]
  simp only [Focal.convertToPercentage, h, fmtRat_100]
  decide

/-- C3: the claim as stated is false on the code.  The cache key is
the underscore-join of the two coordinate strings, so the distinct
pairs `("0_1", "0")` and `("0", "1_0")` collide on the key `0_1_0`:
after the first pair is processed (both coordinates parse to 0, giving
`50% 50%`), the second pair returns the cached `50% 50%` although its
own formula value is `50% 100%` (parseFloat of `1_0` is 1). -/
theorem C3_counterexample :
    (Focal.calculatePosition (some (jstr "0")) (some (jstr "1_0"))
        (Focal.calculatePosition (some (jstr "0_1")) (some (jstr "0")) []).2).1 =
      jstr "50% 50%" ∧
    Focal.convertToPercentage (jstr "0") ++ ' ' ::
        Focal.convertToPercentage (jstr "1_0") = jstr "50% 100%" ∧
    (Focal.calculatePosition (some (jstr "0")) (some (jstr "1_0"))
        (Focal.calculatePosition (some (jstr "0_1")) (some (jstr "0")) []).2).1 ≠
      Focal.convertToPercentage (jstr "0") ++ ' ' ::
        Focal.convertToPercentage (jstr "1_0") := by
  refine ⟨?_, ?_, ?_⟩ <;>
    simp only [Focal.calculatePosition, conv_of_0, conv_of_0u1, conv_of_1u0] <;>
    decide

/-- C3 (amended): for coordinate strings that contain no underscore
(in particular every plain numeric coordinate) and any cache reachable
through such calls (captured by `CacheInv`, which the empty cache
satisfies and every call preserves), `calculatePosition` returns
exactly the string `Px% Py%` with `Pv = clamp((parse(v) + 1) * 50, 0,
100)` (an unparsable value acting as 0, hence `50%`); repeated calls
with identical input return the identical cached string; and the
percentage is always clamped into `[0, 100]`.  For strings containing
an underscore, distinct pairs can collide on the joined cache key and
receive the other pair's cached string. -/
theorem C3_calculatePosition_correct (fx fy : JsStr) (cache : Focal.Cache)
    (hc : Focal.CacheInv cache) (hx : '_' ∉ fx) (hy : '_' ∉ fy) :
    (Focal.calculatePosition (some fx) (some fy) cache).1 =
      Focal.convertToPercentage fx ++ ' ' :: Focal.convertToPercentage fy ∧
    Focal.CacheInv (Focal.calculatePosition (some fx) (some fy) cache).2 ∧
    (Focal.calculatePosition (some fx) (some fy)
        (Focal.calculatePosition (some fx) (some fy) cache).2).1 =
      (Focal.calculatePosition (some fx) (some fy) cache).1 ∧
    (0 ≤ Focal.clampedPercentage fx ∧ Focal.clampedPercentage fx ≤ 100) ∧
    (0 ≤ Focal.clampedPercentage fy ∧ Focal.clampedPercentage fy ≤ 100) := by
  obtain ⟨h1, h2⟩ := calculatePosition_correct fx fy cache hc hx hy
  obtain ⟨h3, h4⟩ := calculatePosition_correct fx fy _ h2 hx hy
  exact ⟨h1, h2, by rw [h3, h1], clampedPercentage_bounds fx,
    clampedPercentage_bounds fy⟩

/-- C3 witness: the amended statement at the concrete in-range pair
`("0.5", "-1")` against the empty cache. -/
theorem C3_calculatePosition_witness :
    Focal.CacheInv [] ∧ '_' ∉ jstr "0.5" ∧ '_' ∉ jstr "-1" ∧
    ((Focal.calculatePosition (some (jstr "0.5")) (some (jstr "-1")) []).1 =
      Focal.convertToPercentage (jstr "0.5") ++ ' ' ::
        Focal.convertToPercentage (jstr "-1") ∧
     Focal.CacheInv (Focal.calculatePosition (some (jstr "0.5")) (some (jstr "-1")) []).2) :=
  have hc : Focal.CacheInv [] := fun kv hkv => absurd hkv (List.not_mem_nil kv)
  ⟨hc, by decide, by decide,
    (C3_calculatePosition_correct (jstr "0.5") (jstr "-1") [] hc
      (by decide) (by decide)).1,
    (C3_calculatePosition_correct (jstr "0.5") (jstr "-1") [] hc
      (by decide) (by decide)).2.1⟩

end Theme

namespace Theme

/-- C4: the mount decision.  `checkCarousel` returns true exactly when
the viewport is not desktop (the media query object is missing or does
not match) or the slide count strictly exceeds the configured max
(`maxSlidesDesktop = 4`); hence on a desktop viewport with at most 4
slides the carousel never mounts, and below the 992px breakpoint
(where `matchMedia` is false) it mounts regardless of slide count.
`init` and the debounced media-query handler mount exactly when this
predicate returns true. -/
theorem C4_checkCarousel_decision (n : Nat) (mq : Option Bool) (w : ℚ) :
    (Carousel.checkCarousel n mq = true ↔
      (mq ≠ some true ∨ n > Carousel.maxSlidesDesktop)) ∧
    (mq = some true → n ≤ Carousel.maxSlidesDesktop →
      Carousel.checkCarousel n mq = false) ∧
    (w < Carousel.breakpoint →
      Carousel.checkCarousel n (some (Carousel.matchMedia w)) = true) := by
  refine ⟨?_, ?_, ?_⟩
  · by_cases h : mq = some true <;>
      simp [Carousel.checkCarousel, Carousel.desktop, h]
  · intro h hn
    simp [Carousel.checkCarousel, Carousel.desktop, h]
    omega
  · intro hw
    have hm : Carousel.matchMedia w = false := by
      simp [Carousel.matchMedia]
      exact hw
    simp [Carousel.checkCarousel, Carousel.desktop, hm]

/-- C4 witness: 3 slides on a matching desktop media query do not
mount; 3 slides at a 500px-wide viewport (below the breakpoint)
mount. -/
theorem C4_checkCarousel_witness :
    Carousel.checkCarousel 3 (some true) = false ∧
    Carousel.checkCarousel 3 (some (Carousel.matchMedia 500)) = true :=
  ⟨(C4_checkCarousel_decision 3 (some true) 500).2.1 rfl (by decide),
   (C4_checkCarousel_decision 3 (some true) 500).2.2 (by norm_num [Carousel.breakpoint])⟩

lemma ap_run_dead : ∀ (evs : List Carousel.Ev) (s : Carousel.APState),
    s.autoplayActive = false → s.autoplayInterval = none →
    (Carousel.run s evs).autoplayActive = false ∧
    (Carousel.run s evs).autoplayInterval = none := by
  intro evs
  induction evs with
  | nil => intro s hA hI; exact ⟨hA, hI⟩
  | cons e rest ih =>
      intro s hA hI
      have hstep : (Carousel.step s e).autoplayActive = false ∧
          (Carousel.step s e).autoplayInterval = none := by
        cases e with
        | pointerDown c =>
            cases c
            · simp [Carousel.step, Carousel.handleCarousel, Carousel.stopInteraction,
                Carousel.autoplayStopPermanently, Carousel.autoplayStop]
            · by_cases hov : s.isHovering = false <;>
                simp [Carousel.step, Carousel.handleCarousel, Carousel.stopInteraction,
                  Carousel.autoplayStop, Carousel.autoplayStart, hA, hI, hov]
        | mouseEnter =>
            simp [Carousel.step, Carousel.autoplayPause, Carousel.autoplayStop, hA]
        | mouseLeave =>
            simp [Carousel.step, Carousel.autoplayResume, Carousel.autoplayStart, hA, hI]
        | visibility b =>
            cases b <;>
              simp [Carousel.step, Carousel.autoplayResume, Carousel.autoplayPause,
                Carousel.autoplayStop, Carousel.autoplayStart, hA, hI]
        | startCall =>
            simp [Carousel.step, Carousel.autoplayStart, hA, hI]
        | resumeCall =>
            simp [Carousel.step, Carousel.autoplayResume, Carousel.autoplayStart, hA, hI]
      have hrest := ih (Carousel.step s e) hstep.1 hstep.2
      simpa [Carousel.run] using hrest

/-- C5: once `autoplayStopPermanently` has run (the outside-click
branch of `handleCarousel`), no subsequent sequence of events — hover
enter/leave, visibility-observer intersections in either direction,
control or non-control clicks, or direct `autoplayStart` and
`autoplayResume` calls — ever restarts the interval: in every
reachable state the interval handle is still null. -/
theorem C5_autoplay_permanent_stop (s : Carousel.APState) (evs : List Carousel.Ev) :
    (Carousel.run (Carousel.autoplayStopPermanently s) evs).autoplayInterval = none :=
  (ap_run_dead evs _
    (by simp [Carousel.autoplayStopPermanently, Carousel.autoplayStop])
    (by simp [Carousel.autoplayStopPermanently, Carousel.autoplayStop])).2

/-- C6: while autoplay is still active, a click or touch on a
navigation control does not permanently stop autoplay: the active
flag stays true, and the interval is cleared and immediately
restarted with a fresh handle (the never-before-issued
`nextHandle`) exactly when the pointer is not hovering the
carousel. -/
theorem C6_control_click_restart (s : Carousel.APState)
    (h : s.autoplayActive = true) :
    (Carousel.step s (Carousel.Ev.pointerDown true)).autoplayActive = true ∧
    (Carousel.step s (Carousel.Ev.pointerDown true)).autoplayInterval =
      (if s.isHovering = true then none else some s.nextHandle) ∧
    ((Carousel.step s (Carousel.Ev.pointerDown true)).autoplayInterval.isSome = true ↔
      s.isHovering = false) := by
  by_cases hov : s.isHovering = true <;>
    simp [Carousel.step, Carousel.handleCarousel, Carousel.stopInteraction,
      Carousel.autoplayStop, Carousel.autoplayStart, h, hov]

/-- C6 witness: from an active, non-hovering state with no running
interval, a control click leaves autoplay active and starts the fresh
interval handle 0. -/
theorem C6_control_click_witness :
    (Carousel.step ⟨none, true, false, 0⟩ (Carousel.Ev.pointerDown true)).autoplayActive
      = true ∧
    (Carousel.step ⟨none, true, false, 0⟩ (Carousel.Ev.pointerDown true)).autoplayInterval
      = (if (⟨none, true, false, 0⟩ : Carousel.APState).isHovering = true then none
         else some (⟨none, true, false, 0⟩ : Carousel.APState).nextHandle) ∧
    ((Carousel.step ⟨none, true, false, 0⟩ (Carousel.Ev.pointerDown true)).autoplayInterval.isSome
        = true ↔ (⟨none, true, false, 0⟩ : Carousel.APState).isHovering = false) :=
  C6_control_click_restart ⟨none, true, false, 0⟩ rfl

end Theme

namespace Theme

lemma tb_below_threshold (cache : TopBar.Cache) (sc : Bool) (y : ℚ)
    (h : y ≤ jsMax TopBar.minHeight cache.barHeight) :
    (TopBar.handleScroll y true sc cache).1 = false := by
  simp [TopBar.handleScroll, TopBar.readScroll, TopBar.writeScroll, h]

/-- C7: with a sticky header, whenever the current scroll position is
at or below the effective threshold the scroll modifier is removed
regardless of direction; and in the concrete scenario with bar height
80, hysteresis 20 and threshold 200, scrolling 0 to 250 adds the
modifier (above threshold, moving down) and then scrolling to 180
removes it (below threshold). -/
theorem C7_topbar_scroll :
    (∀ (cache : TopBar.Cache) (sc : Bool) (y : ℚ),
        y ≤ jsMax TopBar.minHeight cache.barHeight →
        (TopBar.handleScroll y true sc cache).1 = false) ∧
    (TopBar.handleScroll 250 true false ⟨80, 0⟩).1 = true ∧
    (TopBar.handleScroll 180 true (TopBar.handleScroll 250 true false ⟨80, 0⟩).1
        (TopBar.handleScroll 250 true false ⟨80, 0⟩).2).1 = false := by
  have h1 : TopBar.handleScroll 250 true false ⟨80, 0⟩ = (true, ⟨80, 250⟩) := by
    norm_num [TopBar.handleScroll, TopBar.readScroll, TopBar.writeScroll,
      TopBar.minHeight, TopBar.hysteresis, jsMax]
  refine ⟨fun cache sc y h => tb_below_threshold cache sc y h, ?_, ?_⟩
  · rw [h1]
  · rw [h1]
    norm_num [TopBar.handleScroll, TopBar.readScroll, TopBar.writeScroll,
      TopBar.minHeight, TopBar.hysteresis, jsMax]

/-- C7 witness: the universal part instantiated at bar height 80,
scroll position 100 (below the 200 threshold) with the modifier
currently present: it is removed. -/
theorem C7_topbar_scroll_witness :
    (100 : ℚ) ≤ jsMax TopBar.minHeight (80 : ℚ) ∧
    (TopBar.handleScroll 100 true true ⟨80, 0⟩).1 = false :=
  have h : (100 : ℚ) ≤ jsMax TopBar.minHeight (80 : ℚ) := by
    norm_num [jsMax, TopBar.minHeight]
  ⟨h, C7_topbar_scroll.1 ⟨80, 0⟩ true 100 h⟩

/-- C10: at every scroll evaluation the effective threshold read from
the cache is the maximum of the 200px default and the most recently
cached bar height; consequently, for a bar taller than 200px the
bar's own height governs the modifier: any scroll position at or
below the bar height (even one above 200) removes the modifier. -/
theorem C10_effective_threshold :
    (∀ (cache : TopBar.Cache) (y : ℚ) (sc st : Bool),
        (TopBar.readScroll cache y sc st).threshold =
          max TopBar.minHeight cache.barHeight) ∧
    (∀ (cache : TopBar.Cache) (sc : Bool) (y : ℚ),
        TopBar.minHeight < cache.barHeight → y ≤ cache.barHeight →
        (TopBar.handleScroll y true sc cache).1 = false) := by
  constructor
  · intro cache y sc st
    simp [TopBar.readScroll, jsMax_eq]
  · intro cache sc y hh hy
    apply tb_below_threshold
    rw [jsMax_eq, max_eq_right (le_of_lt hh)]
    exact hy

/-- C10 witness: with a 300px bar, the read threshold is max 200 300
and scroll position 250 (above the 200 default but below the bar
height) removes the modifier. -/
theorem C10_effective_threshold_witness :
    (TopBar.readScroll ⟨300, 0⟩ 250 false true).threshold =
      max TopBar.minHeight (300 : ℚ) ∧
    (TopBar.handleScroll 250 true false ⟨300, 0⟩).1 = false :=
  ⟨C10_effective_threshold.1 ⟨300, 0⟩ 250 false true,
   C10_effective_threshold.2 ⟨300, 0⟩ false 250
     (by norm_num [TopBar.minHeight]) (by norm_num)⟩

end Theme

namespace Theme

lemma fire_loadCount (n : Nat) (s : ImageLoading.St) :
    (ImageLoading.fireLoadListeners n s).loadCount = s.loadCount + n := by
  induction n generalizing s with
  | zero => simp [ImageLoading.fireLoadListeners]
  | succ n ih =>
      simp [ImageLoading.fireLoadListeners, ih, ImageLoading.fadeInImage]
      omega

lemma loadImage_out (s : ImageLoading.St) :
    ImageLoading.loadImage s = s ∨
    (s.img.hidden = true ∧ s.img.complete = true ∧
      ImageLoading.loadImage s = ImageLoading.fadeInImage s) ∨
    (s.img.hidden = true ∧ s.img.complete = false ∧
      ImageLoading.loadImage s = { s with pendingLoad := s.pendingLoad + 1 }) := by
  by_cases h1 : s.img.isMain = false
  · left; simp [ImageLoading.loadImage, h1]
  · by_cases h2 : s.img.hidden = false
    · left; simp [ImageLoading.loadImage, h1, h2]
    · by_cases h3 : s.img.hasWrapper = false ∨ s.img.hasPlaceholder = false
      · left; simp [ImageLoading.loadImage, h1, h2, h3]
      · by_cases h4 : s.img.complete = true
        · exact Or.inr (Or.inl ⟨by simpa using h2, h4,
            by simp [ImageLoading.loadImage, h1, h2, h3, h4]⟩)
        · exact Or.inr (Or.inr ⟨by simpa using h2, by simpa using h4,
            by simp [ImageLoading.loadImage, h1, h2, h3, h4]⟩)

lemma inv_stepI (s : ImageLoading.St) (hInv : ImageLoading.Inv s)
    (e : ImageLoading.IEv) : ImageLoading.Inv (ImageLoading.stepI s e) := by
  obtain ⟨h1, h2, h3, h4⟩ := hInv
  cases e with
  | intersect b =>
      by_cases hobs : s.observed = true
      · by_cases hb : b = true
        · obtain ⟨hc0, hp0, hh⟩ := h4 hobs
          simp only [ImageLoading.stepI, hobs, hb, if_true]
          rcases loadImage_out s with ho | ⟨-, -, ho⟩ | ⟨-, hco, ho⟩ <;>
            rw [ho] <;>
            refine ⟨?_, ?_, ?_, ?_⟩ <;>
            simp [ImageLoading.Inv, ImageLoading.fadeInImage, hc0, hp0, hh]
        · simpa [ImageLoading.stepI, hobs, hb] using ⟨h1, h2, h3, h4⟩
      · simpa [ImageLoading.stepI, hobs] using ⟨h1, h2, h3, h4⟩
  | browserLoad =>
      have hp : s.pendingLoad = 0 ∨ s.pendingLoad = 1 := by omega
      rcases hp with hp | hp
      · simp only [ImageLoading.stepI, hp, ImageLoading.fireLoadListeners]
        refine ⟨?_, ?_, ?_, ?_⟩
        · simp; omega
        · simpa using h2
        · simp
        · intro ho
          simp only at ho
          simpa using ⟨(h4 ho).1, (h4 ho).2.2⟩
      · have hh := h3 (by omega)
        have hc : s.loadCount = 0 := by omega
        have hnotobs : s.observed = false := by
          by_cases ho : s.observed = true
          · exact absurd (h4 ho).2.1 (by omega)
          · simpa using ho
        simp only [ImageLoading.stepI, hp, ImageLoading.fireLoadListeners,
          ImageLoading.fadeInImage]
        refine ⟨?_, ?_, ?_, ?_⟩
        · simp; omega
        · simp
        · simp
        · simp [hnotobs]

lemma inv_runI (evs : List ImageLoading.IEv) (s : ImageLoading.St)
    (h : ImageLoading.Inv s) : ImageLoading.Inv (ImageLoading.runI s evs) := by
  induction evs generalizing s with
  | nil => exact h
  | cons e rest ih =>
      have := ih (ImageLoading.stepI s e) (inv_stepI s h e)
      simpa [ImageLoading.runI] using this

lemma stepI_mono (s : ImageLoading.St) (e : ImageLoading.IEv) :
    s.loadCount ≤ (ImageLoading.stepI s e).loadCount := by
  cases e with
  | intersect b =>
      by_cases hobs : s.observed = true
      · by_cases hb : b = true
        · simp only [ImageLoading.stepI, hobs, hb, if_true]
          rcases loadImage_out s with ho | ⟨-, -, ho⟩ | ⟨-, -, ho⟩ <;>
            simp [ho, ImageLoading.fadeInImage]
        · simp [ImageLoading.stepI, hobs, hb]
      · simp [ImageLoading.stepI, hobs]
  | browserLoad =>
      simp only [ImageLoading.stepI]
      rw [fire_loadCount]
      simp

lemma runI_mono (evs : List ImageLoading.IEv) (s : ImageLoading.St) :
    s.loadCount ≤ (ImageLoading.runI s evs).loadCount := by
  induction evs generalizing s with
  | nil => exact le_refl _
  | cons e rest ih =>
      have h1 := stepI_mono s e
      have h2 := ih (ImageLoading.stepI s e)
      have h3 : ImageLoading.runI s (e :: rest) =
          ImageLoading.runI (ImageLoading.stepI s e) rest := by
        simp [ImageLoading.runI]
      rw [h3]
      exact le_trans h1 h2

end Theme

namespace Theme

lemma scan_inv (found : Bool) (img : ImageLoading.Img) :
    ImageLoading.Inv (ImageLoading.processImage (ImageLoading.initialSt found img)) := by
  obtain ⟨m, hd, lc, hw, hp, co, iv⟩ := img
  unfold ImageLoading.Inv
  cases found <;> cases m <;> cases hd <;> cases lc <;> cases hw <;>
    cases hp <;> cases co <;> cases iv <;> decide

lemma scan_viewport (img : ImageLoading.Img) :
    img.isMain = true → img.hasWrapper = true → img.hasPlaceholder = true →
    img.hidden = true → img.inViewport = true →
    (ImageLoading.processImage (ImageLoading.initialSt true img)).observed = false ∧
    (img.complete = true →
      (ImageLoading.processImage (ImageLoading.initialSt true img)).loadCount = 1 ∧
      (ImageLoading.processImage (ImageLoading.initialSt true img)).img.hidden = false) ∧
    (img.complete = false →
      (ImageLoading.processImage (ImageLoading.initialSt true img)).pendingLoad = 1 ∧
      (ImageLoading.stepI (ImageLoading.processImage (ImageLoading.initialSt true img))
        ImageLoading.IEv.browserLoad).loadCount = 1) := by
  obtain ⟨m, hd, lc, hw, hp, co, iv⟩ := img
  cases m <;> cases hd <;> cases lc <;> cases hw <;>
    cases hp <;> cases co <;> cases iv <;> decide

lemma scan_observe (img : ImageLoading.Img) :
    img.isMain = true → img.hasWrapper = true → img.hasPlaceholder = true →
    img.hidden = true → img.inViewport = false →
    (ImageLoading.processImage (ImageLoading.initialSt true img)).observed = true ∧
    (ImageLoading.processImage (ImageLoading.initialSt true img)).loadCount = 0 ∧
    (img.complete = true →
      (ImageLoading.stepI (ImageLoading.processImage (ImageLoading.initialSt true img))
          (ImageLoading.IEv.intersect true)).loadCount = 1 ∧
      (ImageLoading.stepI (ImageLoading.processImage (ImageLoading.initialSt true img))
          (ImageLoading.IEv.intersect true)).observed = false) ∧
    (img.complete = false →
      (ImageLoading.stepI (ImageLoading.processImage (ImageLoading.initialSt true img))
          (ImageLoading.IEv.intersect true)).pendingLoad = 1 ∧
      (ImageLoading.stepI (ImageLoading.processImage (ImageLoading.initialSt true img))
          (ImageLoading.IEv.intersect true)).observed = false ∧
      (ImageLoading.stepI
          (ImageLoading.stepI (ImageLoading.processImage (ImageLoading.initialSt true img))
            (ImageLoading.IEv.intersect true))
          ImageLoading.IEv.browserLoad).loadCount = 1) := by
  obtain ⟨m, hd, lc, hw, hp, co, iv⟩ := img
  cases m <;> cases hd <;> cases lc <;> cases hw <;>
    cases hp <;> cases co <;> cases iv <;> decide

lemma scan_skip (found : Bool) (img : ImageLoading.Img) (h : img.hidden = false) :
    ImageLoading.processImage (ImageLoading.initialSt found img) =
      ImageLoading.initialSt found img := by
  by_cases h1 : found = false ∨ img.hasPlaceholder = false <;>
    simp [ImageLoading.processImage, ImageLoading.initialSt, h1, h]

lemma z_runI (evs : List ImageLoading.IEv) (s : ImageLoading.St)
    (h : s.loadCount = 0 ∧ s.pendingLoad = 0 ∧ s.observed = false) :
    (ImageLoading.runI s evs).loadCount = 0 := by
  induction evs generalizing s with
  | nil => exact h.1
  | cons e rest ih =>
      have hstep : (ImageLoading.stepI s e).loadCount = 0 ∧
          (ImageLoading.stepI s e).pendingLoad = 0 ∧
          (ImageLoading.stepI s e).observed = false := by
        obtain ⟨hc, hpd, ho⟩ := h
        cases e with
        | intersect b => simp [ImageLoading.stepI, ho, hc, hpd]
        | browserLoad =>
            simp [ImageLoading.stepI, hpd, ImageLoading.fireLoadListeners, hc, ho]
      have := ih (ImageLoading.stepI s e) hstep
      simpa [ImageLoading.runI] using this

/-- C8: lazy image loading.  For a wrapper with a still-hidden valid
main image (main class, wrapper and placeholder present): if the image
is in the viewport at scan time it is loaded synchronously during the
scan and never handed to the observer (fade-in runs at once when the
fetch is complete, otherwise the once-only load listener is attached
and the browser load event completes exactly one load); if it is
outside the viewport it is instead observed, unloaded, and its first
intersection loads it exactly once and unobserves it immediately
(with the load completing on the browser load event when the fetch
was not yet complete).  Over every event sequence the image loads at
most once, the load count never decreases (so once loaded it stays
loaded exactly once), and an image already lacking the hidden class
at scan time is never loaded at all. -/
theorem C8_lazy_loading (img : ImageLoading.Img) :
    (img.isMain = true → img.hasWrapper = true → img.hasPlaceholder = true →
      img.hidden = true → img.inViewport = true →
      (ImageLoading.processImage (ImageLoading.initialSt true img)).observed = false ∧
      (img.complete = true →
        (ImageLoading.processImage (ImageLoading.initialSt true img)).loadCount = 1 ∧
        (ImageLoading.processImage (ImageLoading.initialSt true img)).img.hidden = false) ∧
      (img.complete = false →
        (ImageLoading.processImage (ImageLoading.initialSt true img)).pendingLoad = 1 ∧
        (ImageLoading.stepI (ImageLoading.processImage (ImageLoading.initialSt true img))
          ImageLoading.IEv.browserLoad).loadCount = 1)) ∧
    (img.isMain = true → img.hasWrapper = true → img.hasPlaceholder = true →
      img.hidden = true → img.inViewport = false →
      (ImageLoading.processImage (ImageLoading.initialSt true img)).observed = true ∧
      (ImageLoading.processImage (ImageLoading.initialSt true img)).loadCount = 0 ∧
      (img.complete = true →
        (ImageLoading.stepI (ImageLoading.processImage (ImageLoading.initialSt true img))
            (ImageLoading.IEv.intersect true)).loadCount = 1 ∧
        (ImageLoading.stepI (ImageLoading.processImage (ImageLoading.initialSt true img))
            (ImageLoading.IEv.intersect true)).observed = false) ∧
      (img.complete = false →
        (ImageLoading.stepI (ImageLoading.processImage (ImageLoading.initialSt true img))
            (ImageLoading.IEv.intersect true)).pendingLoad = 1 ∧
        (ImageLoading.stepI (ImageLoading.processImage (ImageLoading.initialSt true img))
            (ImageLoading.IEv.intersect true)).observed = false ∧
        (ImageLoading.stepI
            (ImageLoading.stepI (ImageLoading.processImage (ImageLoading.initialSt true img))
              (ImageLoading.IEv.intersect true))
            ImageLoading.IEv.browserLoad).loadCount = 1)) ∧
    (∀ evs : List ImageLoading.IEv,
      (ImageLoading.runI (ImageLoading.processImage (ImageLoading.initialSt true img))
        evs).loadCount ≤ 1) ∧
    (∀ (evs : List ImageLoading.IEv) (s : ImageLoading.St),
      s.loadCount ≤ (ImageLoading.runI s evs).loadCount) ∧
    (img.hidden = false → ∀ evs : List ImageLoading.IEv,
      (ImageLoading.runI (ImageLoading.processImage (ImageLoading.initialSt true img))
        evs).loadCount = 0) := by
  refine ⟨scan_viewport img, scan_observe img, ?_, fun evs s => runI_mono evs s, ?_⟩
  · intro evs
    obtain ⟨h1, -, -, -⟩ := inv_runI evs _ (scan_inv true img)
    omega
  · intro h evs
    rw [scan_skip true img h]
    exact z_runI evs _ ⟨rfl, rfl, rfl⟩

/-- C8 witness: a valid hidden, complete, in-viewport image loads once
during the scan and is not observed; and a valid hidden, complete,
out-of-viewport image is observed, then loads exactly once and is
unobserved on its first intersection. -/
theorem C8_lazy_loading_witness :
    (ImageLoading.processImage (ImageLoading.initialSt true
        ⟨true, true, false, true, true, true, true⟩)).observed = false ∧
    (ImageLoading.processImage (ImageLoading.initialSt true
        ⟨true, true, false, true, true, true, true⟩)).loadCount = 1 ∧
    (ImageLoading.processImage (ImageLoading.initialSt true
        ⟨true, true, false, true, true, true, false⟩)).observed = true ∧
    (ImageLoading.stepI (ImageLoading.processImage (ImageLoading.initialSt true
        ⟨true, true, false, true, true, true, false⟩))
        (ImageLoading.IEv.intersect true)).loadCount = 1 ∧
    (ImageLoading.stepI (ImageLoading.processImage (ImageLoading.initialSt true
        ⟨true, true, false, true, true, true, false⟩))
        (ImageLoading.IEv.intersect true)).observed = false :=
  have h1 := (C8_lazy_loading ⟨true, true, false, true, true, true, true⟩).1
    rfl rfl rfl rfl rfl
  have h2 := (C8_lazy_loading ⟨true, true, false, true, true, true, false⟩).2.1
    rfl rfl rfl rfl rfl
  ⟨h1.1, (h1.2.1 rfl).1, h2.1, (h2.2.2.1 rfl).1, (h2.2.2.1 rfl).2⟩

/-- C9: after `destroy()` released the watcher, a subsequent
`observe(element)` call re-initializes the handle: it constructs a
fresh underlying watcher (a new instance, id one past the previous
creation counter) that observes exactly the given element — it is
neither a no-op nor a failure.  This settles the discrepancy noted in
the claim in favor of re-initialization. -/
theorem C9_observe_after_destroy (h : Obs.Handle) (e : Nat) :
    (Obs.observe e (Obs.destroy h)).observer = some (h.created + 1, [e]) ∧
    (Obs.observe e (Obs.destroy h)).created = h.created + 1 := by
  simp [Obs.observe, Obs.destroy, Obs.init]

end Theme
